import Mathlib

set_option maxHeartbeats 1000000
set_option maxRecDepth 4000

/-!
Shallow embedding of `chemgraphbuilder/relationship_data_processor.py`.

The module processes chunks ("partitions") of assay-compound relationship
rows: it filters rows missing `aid`/`cid`, imputes `measured_activity` from
the phenotype column, overlays a reference record looked up by
`(int(aid), int(cid), activity_outcome)`, optionally propagates a group-level
phenotype, derives `activity_url`, drops the `(aid, cid) = (1, 1)` sentinel
row, classifies an `activity` label, and appends surviving rows to two
output artifacts.  Any exception inside a chunk is caught by the per-chunk
handler (`process_partition`'s try/except) and the chunk writes nothing.

Modelling conventions:
* A CSV cell value is `Cell.int n` or `Cell.str s`; a missing value
  (`NaN`/`pd.NA`) is `Option.none` at the field level.  Rows carry the
  columns the claims mention; `reindex(columns=...)` is reflected by every
  field already being optional.
* Python `int(x)` on a cell is `parseCell` (`none` models the raised
  `ValueError`/`TypeError`); `str.find` is `strFindAux` (char positions,
  `none` for `-1`); `str.lower` is `pyLower` (ASCII, as in the data).
* pandas boolean-mask semantics: `Series.str.contains` over a column with
  missing values yields NA at those rows, and pandas' logical-and
  (`na_logical_op` + `fill_bool`) coerces NA to `False` before `.loc`
  masking, so a missing `assay_name`/`activity_direction` makes the mask
  entry `False` (no exception).  In contrast, line 365's
  `Series.apply(determine_active_label)` calls `.lower()` on the raw value
  and raises `AttributeError` on a missing `assay_name` of an Active row;
  `determineLabelsAndActivity` returns `Except.error` in exactly that case.
* The reference index `all_data_connected` values are rows of the master
  file that survived `dropna(subset=['aid','cid'])`, hence `RefRec.aid` and
  `RefRec.cid` are non-optional; the overlay writes every column of the
  reference record onto the row (reference values win).
* `groupby(['activity_outcome','assay_name']).apply(propagate_phenotype)`
  keeps each row once with an updated `phenotype`, and (pandas
  `dropna=True` group keys) drops rows whose `assay_name` is missing;
  row order is irrelevant to every property proved here.
* The dict built by `_load_all_data_connected` is modelled as a lookup
  function `RefKey → Option V`; `dict.update(other)` is "`other` wins where
  defined", which is exactly the lookup semantics of the Python loop.
-/

/-- A non-missing CSV cell value: an integer or a free-text string. -/
inductive Cell : Type where
  | int (n : Int)
  | str (s : String)
deriving DecidableEq, Repr

/-- One source-file row after column normalisation and reindexing to the
canonical schema: every column the claims mention, each optional
(`none` = missing marker). -/
structure Row where
  aid : Option Cell
  cid : Option Cell
  sid : Option Cell
  activity_outcome : Option String
  assay_name : Option String
  activity_name : Option String
  activity_direction : Option String
  target_geneid : Option Cell
  phenotype : Option String
  measured_activity : Option String
  activity_url : Option String
  activity : Option String
deriving DecidableEq, Repr

/-- A row with every field missing; concrete rows in the theorems below are
written as updates of this. -/
def baseRow : Row :=
  { aid := none, cid := none, sid := none, activity_outcome := none,
    assay_name := none, activity_name := none, activity_direction := none,
    target_geneid := none, phenotype := none, measured_activity := none,
    activity_url := none, activity := none }

/-- ASCII lower-casing of one character, as Python `str.lower` acts on the
ASCII assay names in the data. -/
def lowerChar (c : Char) : Char :=
  if 'A' ≤ c ∧ c ≤ 'Z' then Char.ofNat (c.toNat + 32) else c

/-- Python `s.lower()` (ASCII). -/
def pyLower (s : String) : String := String.mk (s.data.map lowerChar)

/-- Bool test that the first list is an initial segment of the second. -/
def leadsList : List Char → List Char → Bool
  | [], _ => true
  | _ :: _, [] => false
  | a :: as, b :: bs => a == b && leadsList as bs

/-- Python `hay.find(needle)`: position (in characters) of the first
occurrence, `none` for `-1`. -/
def strFindAux (needle : List Char) : List Char → Option Nat
  | [] => if leadsList needle [] then some 0 else none
  | c :: t =>
    if leadsList needle (c :: t) then some 0
    else (strFindAux needle t).map (· + 1)

/-- Python `hay.find(needle)` on strings. -/
def strFind (hay needle : String) : Option Nat := strFindAux needle.data hay.data

/-- Python `needle in hay` / plain-substring `Series.str.contains`. -/
def pyContains (hay pat : String) : Bool := (strFindAux pat.data hay.data).isSome

/-- `Series.str.contains(pat, case=False)` on one optional cell: missing
values give NA, which the pandas boolean-and coerces to `False`. -/
def optContains (o : Option String) (pat : String) : Bool :=
  match o with
  | some s => pyContains (pyLower s) pat
  | none => false

/-- No `'\n'` among the skipped characters (regex `.` does not match a
newline outside DOTALL). -/
def noNewline (l : List Char) : Bool := l.all (fun c => c != '\n')

/-- The pattern `pat` occurs starting at position `i` of `s`. -/
def prefixAtPos (pat : List Char) (s : List Char) (i : Nat) : Bool :=
  leadsList pat (s.drop i)

/-- `re.search` of `a.*b` in `s`: an occurrence of `a` followed (with only
non-newline characters between) by an occurrence of `b`. -/
def regexSeq2 (a b : List Char) (s : List Char) : Bool :=
  (List.range (s.length + 1)).any fun i =>
    prefixAtPos a s i &&
    ((List.range (s.length + 1)).any fun j =>
      decide (i + a.length ≤ j) && prefixAtPos b s j &&
        noNewline ((s.drop (i + a.length)).take (j - (i + a.length))))

/-- `re.search` of `a.*b` on a (lower-cased) string. -/
def pySearchSeq (s a b : String) : Bool := regexSeq2 a.data b.data s.data

/-- `substrate_pattern` of `_determine_labels_and_activity` (line 368),
applied to the lower-cased assay name. -/
def substratePatternHit (s : String) : Bool :=
  pySearchSeq s "activity of" "oxidation" ||
  pySearchSeq s "activity at cyp" "phenotyping" ||
  pySearchSeq s "activity at human recombinant cyp" "formation" ||
  pySearchSeq s "activity at recombinant cyp" "formation"

/-- `ActIndMod_pattern` (line 371), applied to the lower-cased assay name. -/
def actIndModPatternHit (s : String) : Bool :=
  pyContains s "effect on cyp" ||
  pyContains s "effect on human recombinant cyp" ||
  pyContains s "effect on recombinant cyp" ||
  pyContains s "effect on human cyp"

/-- `inducer_pattern` (line 374); `(induction of.*)` is just containment of
`"induction of"`. -/
def inducerPatternHit (s : String) : Bool :=
  pySearchSeq s "effect on cyp" "induction" || pyContains s "induction of"

/-- `Series.str.contains(pattern, case=False)` on an optional assay name;
missing gives NA, coerced to `False` by the pandas boolean-and. -/
def optPatternHit (o : Option String) (hit : String → Bool) : Bool :=
  match o with
  | some s => hit (pyLower s)
  | none => false

/-- `inhibitor_keywords` (lines 276-289). -/
def inhibitor_keywords : List String :=
  ["inhibition", "reversible inhibition", "time dependent inhibition",
   "inhibitory activity", "time-dependent inhibition", "time dependent irreversible inhibition",
   "inhibitory concentration", "inhibitory effect", "inhibitory potency",
   "concentration required to inhibit", "competitive inhibition", "cyp inhibition",
   "irreversible inhibition", "mechanism based inhibition", "mixed inhibition",
   "mixed type inhibition", "inhibitory constant", "antagonistic activity", "selectivity",
   "s1p4 agonists", "small molecule antagonists", "displacement", "mediated midazolam 1-hydroxylation",
   "time/nadph-dependent inhibition", "reversal inhibition", "mechanism-based inhibition",
   "mechanism based time dependent inhibition", "reversible competitive inhibition",
   "predictive competitive inhibition", "noncompetitive inhibition", "in vitro inhibitory",
   "in vitro inhibition", "inhibition of", "direct inhibition", "enzyme inhibition", "dndi",
   "inhibition assay"]

/-- `ligand_keywords` (lines 291-294). -/
def ligand_keywords : List String :=
  ["binding affinity", "spectral binding", "interaction with", "bind",
   "covalent binding affinity", "apparent binding affinity"]

/-- `inhibitor_substrate_keywords` (lines 296-298). -/
def inhibitor_substrate_keywords : List String :=
  ["inhibitors and substrates"]

/-- `inhibitor_activator_modulator_keywords` (lines 300-302). -/
def inhibitor_activator_modulator_keywords : List String :=
  ["apoprotein formation", "panel assay", "eurofins-panlabs enzyme assay"]

/-- `substrate_keywords` (lines 304-310). -/
def substrate_keywords : List String :=
  ["drug metabolism", "prodrug", "metabolic", "oxidation", "substrate activity",
   "michaelis-menten", "metabolic stability", "bioactivation", "drug level",
   "enzyme-mediated drug depletion", "enzyme-mediated compound formation",
   "phenotyping", "activity of human recombinant cyp", "activity of recombinant cyp",
   "activity at cyp", "enzyme-mediated drug metabolism"]

/-- `inactivator_keywords` (lines 312-315). -/
def inactivator_keywords : List String :=
  ["inactivator", "inactivation of", "mechanism based inactivation of", "inactivators",
   "metabolism dependent inactivation"]

/-- `activator_keywords` (lines 317-319). -/
def activator_keywords : List String :=
  ["assay for activators", "activation of", "activators of"]

/-- `inducer_keywords` (lines 321-323). -/
def inducer_keywords : List String :=
  ["induction of", "inducer", "inducers", "time-dependant induction"]

/-- `all_keywords` (lines 325-327): concatenation in the source's order. -/
def all_keywords : List String :=
  inhibitor_keywords ++ ligand_keywords ++ inhibitor_substrate_keywords ++
  inhibitor_activator_modulator_keywords ++ substrate_keywords ++
  inactivator_keywords ++ activator_keywords ++ inducer_keywords

/-- The `keyword_to_label` dict's insertion sequence (lines 329-338), in the
source's construction order (a later binding overrides an earlier one). -/
def keyword_label_entries : List (String × String) :=
  inhibitor_keywords.map (fun k => (k, "Inhibitor")) ++
  inhibitor_substrate_keywords.map (fun k => (k, "Inhibitor/Substrate")) ++
  inhibitor_activator_modulator_keywords.map (fun k => (k, "Inhibitor/Inducer/Modulator")) ++
  substrate_keywords.map (fun k => (k, "Substrate")) ++
  inactivator_keywords.map (fun k => (k, "Inactivator")) ++
  activator_keywords.map (fun k => (k, "Activator")) ++
  inducer_keywords.map (fun k => (k, "Inducer")) ++
  ligand_keywords.map (fun k => (k, "Ligand"))

/-- `keyword_to_label[k]`: the last binding for `k` wins (Python dict); only
ever consulted for `k ∈ all_keywords`, so the default is irrelevant. -/
def keywordToLabel (k : String) : String :=
  ((keyword_label_entries.reverse).lookup k).getD ""

/-- One iteration of the keyword loop (lines 347-350): keep the keyword if
its found position is strictly smaller than the best so far
(`if 0 <= position < first_position`). -/
def scanStep (name : List Char) (k : String) (acc : Option String × Nat) :
    Option String × Nat :=
  match strFindAux k.data name with
  | some p => if p < acc.2 then (some k, p) else acc
  | none => acc

/-- The keyword scan of `determine_active_label` (lines 346-350): fold over
the keyword list with `scanStep`, starting from no keyword and the name's
length as the best position. -/
def scanKeywords (name : List Char) : List String → Option String × Nat → Option String × Nat
  | [], acc => acc
  | k :: ks, acc => scanKeywords name ks (scanStep name k acc)

/-- `determine_active_label` (lines 340-354): earliest-position keyword wins
(first-in-list on ties), default `Inhibitor/Inducer/Modulator`. -/
def determine_active_label (assay_name : String) : String :=
  match (scanKeywords (pyLower assay_name).data all_keywords
      (none, (pyLower assay_name).data.length)).1 with
  | some k => keywordToLabel k
  | none => "Inhibitor/Inducer/Modulator"

/-- `activity_outcome == 'Active'` (the `active_mask`, line 363). -/
def isActiveRow (r : Row) : Bool := r.activity_outcome == some "Active"

/-- One `merged_df.loc[mask, 'activity'] = lab` assignment, per row. -/
def maskSet (c : Row → Bool) (lab : String) (r : Row) : Row :=
  if c r then { r with activity := some lab } else r

/-- Line 356: `merged_df['activity'] = None`. -/
def step_reset (r : Row) : Row := { r with activity := none }

/-- Lines 359-360: `Inactive` outcome gets label `Inactive`. -/
def step_inactive : Row → Row :=
  maskSet (fun r => r.activity_outcome == some "Inactive") "Inactive"

/-- Line 365: keyword classification of Active rows via
`Series.apply(determine_active_label)`; a missing `assay_name` raises and is
handled at the chunk level in `determineLabelsAndActivity`. -/
def step_keyword (r : Row) : Row :=
  if isActiveRow r then
    match r.assay_name with
    | some an => { r with activity := some (determine_active_label an) }
    | none => r
  else r

/-- Line 366: `activity_name.isin(['Km', 'Drug metabolism'])` forces
`Substrate`. -/
def step_km : Row → Row :=
  maskSet
    (fun r => isActiveRow r &&
      (r.activity_name == some "Km" || r.activity_name == some "Drug metabolism"))
    "Substrate"

/-- Lines 368-369: `substrate_pattern` match forces `Substrate`. -/
def step_substrate : Row → Row :=
  maskSet (fun r => isActiveRow r && optPatternHit r.assay_name substratePatternHit)
    "Substrate"

/-- Lines 371-372: `ActIndMod_pattern` match forces
`Inhibitor/Inducer/Modulator`. -/
def step_actindmod : Row → Row :=
  maskSet (fun r => isActiveRow r && optPatternHit r.assay_name actIndModPatternHit)
    "Inhibitor/Inducer/Modulator"

/-- Lines 374-375: `inducer_pattern` match forces `Inducer`. -/
def step_inducer : Row → Row :=
  maskSet (fun r => isActiveRow r && optPatternHit r.assay_name inducerPatternHit)
    "Inducer"

/-- Line 377: `activity_direction` containing `decreasing` forces
`Inhibitor`. -/
def step_decreasing : Row → Row :=
  maskSet (fun r => isActiveRow r && optContains r.activity_direction "decreasing")
    "Inhibitor"

/-- Line 378: `activity_direction` containing `increasing` forces
`Activator`. -/
def step_increasing : Row → Row :=
  maskSet (fun r => isActiveRow r && optContains r.activity_direction "increasing")
    "Activator"

/-- Line 379: `aid == 1215398` forces `Inactivator` (last assignment). -/
def step_aid1215398 : Row → Row :=
  maskSet (fun r => isActiveRow r && (r.aid == some (Cell.int 1215398)))
    "Inactivator"

/-- The whole per-row effect of lines 356-379 (each masked assignment is
row-local, so the dataframe steps compose pointwise). -/
def classifyRowFull (r : Row) : Row :=
  step_aid1215398 (step_increasing (step_decreasing (step_inducer (step_actindmod
    (step_substrate (step_km (step_keyword (step_inactive (step_reset r)))))))))

/-- `_determine_labels_and_activity` (lines 266-381) on one chunk.  The only
raising operation is line 365's `.apply`: it calls `.lower()` on each Active
row's raw `assay_name`, so an Active row with a missing `assay_name` raises
`AttributeError` (caught by the chunk's handler); all the `.loc` masks
coerce NA entries to `False` and never raise. -/
def determineLabelsAndActivity (rows : List Row) : Except String (List Row) :=
  if ((rows.map step_reset).map step_inactive).any isActiveRow then
    if ((rows.map step_reset).map step_inactive).all
        (fun r => !isActiveRow r || r.assay_name.isSome) then
      Except.ok
        (List.map step_aid1215398
          (List.map step_increasing
            (List.map step_decreasing
              (List.map step_inducer
                (List.map step_actindmod
                  (List.map step_substrate
                    (List.map step_km
                      (List.map step_keyword
                        (List.map step_inactive (List.map step_reset rows))))))))))
    else Except.error "AttributeError"
  else Except.ok ((rows.map step_reset).map step_inactive)

/-- Decimal value of a digit list. -/
def digitsToNat (ds : List Char) : Nat :=
  ds.foldl (fun n c => n * 10 + (c.toNat - '0'.toNat)) 0

/-- Python `int(str)` on its decimal core: an optional minus sign followed
by digits parses, anything else raises `ValueError` (modelled as `none`). -/
def pyIntOfString (s : String) : Option Int :=
  match s.data with
  | [] => none
  | '-' :: ds =>
    if 1 ≤ ds.length ∧ ds.all Char.isDigit then some (-(digitsToNat ds : Int))
    else none
  | ds =>
    if ds.all Char.isDigit then some (digitsToNat ds) else none

/-- Python `int(cell)` (line 88): `none` models the raised
`ValueError`/`TypeError` on a missing or non-integer value. -/
def parseCell : Option Cell → Option Int
  | some (Cell.int n) => some n
  | some (Cell.str s) => pyIntOfString s
  | none => none

/-- Line 203: `measured_activity` is the row-wise mode over the phenotype
columns; with the single `phenotype` column this is its value when present. -/
def computeMeasured (r : Row) : Row := { r with measured_activity := r.phenotype }

/-- One value row of `all_data_connected`: a master-file row that survived
`dropna(subset=['aid','cid'])` (line 61), hence `aid`/`cid` non-missing. -/
structure RefRec where
  aid : Cell
  cid : Cell
  sid : Option Cell
  activity_outcome : Option String
  assay_name : Option String
  activity_name : Option String
  activity_direction : Option String
  target_geneid : Option Cell
  phenotype : Option String
deriving DecidableEq, Repr

/-- Lines 88-92: overlay every column of the matched reference record onto
the row (reference values take precedence). -/
def applyOverlay (r : Row) (q : RefRec) : Row :=
  { r with aid := some q.aid, cid := some q.cid, sid := q.sid,
           activity_outcome := q.activity_outcome, assay_name := q.assay_name,
           activity_name := q.activity_name,
           activity_direction := q.activity_direction,
           target_geneid := q.target_geneid, phenotype := q.phenotype }

/-- The composite key `(int(aid), int(cid), activity_outcome)`. -/
abbrev RefKey := Int × Int × Option String

/-- `_add_all_data_connected_info` (lines 78-95): build the key with
`int(...)` (raising on unparseable values), look it up, overlay on a hit,
log-and-keep on a miss. -/
def addAllDataConnectedInfo (allData : List (RefKey × RefRec)) (r : Row) :
    Except String Row :=
  match parseCell r.aid, parseCell r.cid with
  | some a, some c =>
    match List.lookup (a, c, r.activity_outcome) allData with
    | some q => Except.ok (applyOverlay r q)
    | none => Except.ok r
  | _, _ => Except.error "ValueError"

/-- Lines 208 + 250-264: group by `(activity_outcome, assay_name)` (pandas
drops rows whose group key is missing) and give every row of a group the
group's first non-missing `phenotype`. -/
def propagatePhenotype (df : List Row) : List Row :=
  (df.filter (fun r => r.assay_name.isSome)).map (fun r =>
    match (df.filter (fun r' =>
        r'.activity_outcome == r.activity_outcome &&
        r'.assay_name == r.assay_name)).findSome? (fun r' => r'.phenotype) with
    | some v => { r with phenotype := some v }
    | none => r)

/-- Python `f"...{value}..."` rendering of an optional cell; `pd.NA`
renders as `<NA>`. -/
def pyStr : Option Cell → String
  | some (Cell.int n) => toString n
  | some (Cell.str s) => s
  | none => "<NA>"

/-- Line 214's f-string. -/
def mkActivityUrl (aid sid : Option Cell) : String :=
  "https://pubchem.ncbi.nlm.nih.gov/bioassay/" ++ pyStr aid ++ "#sid=" ++ pyStr sid

/-- Lines 213-216: the URL is derived for every row iff the canonical schema
has a `sid` column (a column-level test, not a per-row one). -/
def deriveUrl (hasSid : Bool) (r : Row) : Row :=
  if hasSid then { r with activity_url := some (mkActivityUrl r.aid r.sid) }
  else { r with activity_url := none }

/-- Line 219: keep `(df['aid'] != 1) | (df['cid'] != 1)`; pandas `!=` with a
missing or non-numeric value is `True`. -/
def sentinelKeep (r : Row) : Bool :=
  !(r.aid == some (Cell.int 1)) || !(r.cid == some (Cell.int 1))

/-- `Series.apply` of a raising function: stops at the first exception. -/
def mapME {α β : Type} (f : α → Except String β) : List α → Except String (List β)
  | [] => Except.ok []
  | a :: t =>
    match f a with
    | Except.error e => Except.error e
    | Except.ok b =>
      match mapME f t with
      | Except.error e => Except.error e
      | Except.ok bs => Except.ok (b :: bs)

/-- Line 200: `dropna(subset=['aid', 'cid'])`. -/
def stage1 (chunk : List Row) : List Row :=
  chunk.filter (fun r => r.aid.isSome && r.cid.isSome)

/-- Line 207-208: the group propagation runs iff the file has a phenotype
column and every (augmented) row has a non-missing `activity_outcome`. -/
def stage4 (hasPhen : Bool) (l : List Row) : List Row :=
  if hasPhen && l.all (fun r => r.activity_outcome.isSome) then
    propagatePhenotype l
  else l

/-- `process_partition` (lines 192-227) up to the try/except: the rows the
chunk appends to the main artifact, or the exception that escaped.
`hasSid` = `'sid' in df.columns` and `hasPhen` = the file has phenotype
columns (both chunk-independent facts of the run). -/
def process_partition (allData : List (RefKey × RefRec)) (hasSid hasPhen : Bool)
    (chunk : List Row) : Except String (List Row) :=
  if (stage1 chunk).isEmpty then Except.ok []
  else
    match mapME (addAllDataConnectedInfo allData) ((stage1 chunk).map computeMeasured) with
    | Except.error e => Except.error e
    | Except.ok df2 =>
      determineLabelsAndActivity
        (((stage4 hasPhen df2).map (deriveUrl hasSid)).filter sentinelKeep)

/-- Lines 230-231: the per-chunk `except` swallows the exception, so a
failed chunk writes nothing. -/
def process_partition_run (allData : List (RefKey × RefRec)) (hasSid hasPhen : Bool)
    (chunk : List Row) : List Row :=
  match process_partition allData hasSid hasPhen chunk with
  | Except.ok out => out
  | Except.error _ => []

/-- One row of the compound-gene artifact (line 227's projection). -/
structure ProjRow where
  cid : Option Cell
  target_geneid : Option Cell
  activity : Option String
  aid : Option Cell
deriving DecidableEq, Repr

/-- `df[['cid', 'target_geneid', 'activity', 'aid']]` of one row. -/
def projRow (r : Row) : ProjRow := ⟨r.cid, r.target_geneid, r.activity, r.aid⟩

/-- The rows the chunk appends to the compound-gene artifact. -/
def process_partition_proj (allData : List (RefKey × RefRec)) (hasSid hasPhen : Bool)
    (chunk : List Row) : List ProjRow :=
  (process_partition_run allData hasSid hasPhen chunk).map projRow

/-- `d[k] = v` on a dict viewed as its lookup function. -/
def dinsert {V : Type} (k : RefKey) (v : V) (d : RefKey → Option V) :
    RefKey → Option V :=
  fun k' => if k' = k then some v else d k'

/-- Lines 59-65: one chunk's local dict, built row by row (a later row with
the same key overwrites an earlier one). -/
def chunkDict {V : Type} (rows : List (RefKey × V)) : RefKey → Option V :=
  rows.foldl (fun acc p => dinsert p.1 p.2 acc) (fun _ => none)

/-- `d1.update(d2)` observed through lookups: `d2` wins where defined. -/
def dictUpd {V : Type} (d1 d2 : RefKey → Option V) : RefKey → Option V :=
  fun k => match d2 k with
    | some v => some v
    | none => d1 k

/-- Lines 67-69: merge the chunk-local dicts in order with `dict.update`. -/
def load_all_data_connected {V : Type} (chunks : List (List (RefKey × V))) :
    RefKey → Option V :=
  chunks.foldl (fun acc ch => dictUpd acc (chunkDict ch)) (fun _ => none)

/-- Modelled from the spec's last-writer rule: the value of the last pair
with key `k` in one chunk. -/
def lastRowValue {V : Type} (rows : List (RefKey × V)) (k : RefKey) : Option V :=
  (rows.reverse.find? (fun p => p.1 == k)).map Prod.snd

/-- Modelled from the spec's last-writer rule: the record contributed by the
last merged chunk containing `k` (and within it, its last row with key `k`). -/
def lastChunkValue {V : Type} (chunks : List (List (RefKey × V))) (k : RefKey) :
    Option V :=
  chunks.reverse.findSome? (fun ch => lastRowValue ch k)

/-- A chunk contributes key `k`. -/
def chunkHasKey {V : Type} (ch : List (RefKey × V)) (k : RefKey) : Bool :=
  ch.any (fun p => p.1 == k)

/-- The fixed label set of the classifier. -/
def nineLabels : List String :=
  ["Inactive", "Inhibitor", "Ligand", "Inhibitor/Substrate",
   "Inhibitor/Inducer/Modulator", "Substrate", "Inactivator", "Activator",
   "Inducer"]

/-! ### Concrete rows used as witnesses and counterexamples -/

/-- An Inactive row with `aid = 5`, `cid = 6`. -/
def rowInact5 : Row :=
  { baseRow with
    aid := some (Cell.int 5), cid := some (Cell.int 6),
    activity_outcome := some "Inactive" }

/-- What the pipeline (with a `sid` column in the schema and an empty
reference index) writes for `rowInact5`. -/
def rowInact5_out : Row :=
  { rowInact5 with
    activity_url := some "https://pubchem.ncbi.nlm.nih.gov/bioassay/5#sid=<NA>",
    activity := some "Inactive" }

/-- A bare Inactive row (classifier input). -/
def rowInact : Row := { baseRow with activity_outcome := some "Inactive" }

/-- The classifier's output for `rowInact`. -/
def rowInact_out : Row := { rowInact with activity := some "Inactive" }

/-- A row whose outcome is neither `Active` nor `Inactive`. -/
def rowInconc : Row := { baseRow with activity_outcome := some "Inconclusive" }

/-- An Active row of the special assay `1215398`. -/
def rowSpecialAid : Row :=
  { baseRow with
    aid := some (Cell.int 1215398), activity_outcome := some "Active",
    assay_name := some "x" }

/-- The classifier's output for `rowSpecialAid`. -/
def rowSpecialAid_out : Row := { rowSpecialAid with activity := some "Inactivator" }

/-- An Active row whose direction contains only `decreasing`. -/
def rowDecr : Row :=
  { baseRow with
    aid := some (Cell.int 7), activity_outcome := some "Active",
    assay_name := some "x", activity_direction := some "decreasing" }

/-- The classifier's output for `rowDecr`. -/
def rowDecr_out : Row := { rowDecr with activity := some "Inhibitor" }

/-- An Active row whose direction contains both `decreasing` and
`increasing`. -/
def rowBothDir : Row :=
  { baseRow with
    aid := some (Cell.int 5), activity_outcome := some "Active",
    assay_name := some "x",
    activity_direction := some "decreasing and increasing" }

/-- A row whose `aid` is present but not parseable as an integer. -/
def rowBadAid : Row :=
  { baseRow with
    aid := some (Cell.str "abc"), cid := some (Cell.int 2),
    activity_outcome := some "Active", assay_name := some "inhibition" }

/-- An Active row with a missing `assay_name`. -/
def rowNoAssay : Row :=
  { baseRow with
    aid := some (Cell.int 2), cid := some (Cell.int 3),
    activity_outcome := some "Active" }

/-- An Active row with a missing `activity_direction` (its `assay_name` is
present). -/
def rowNoDir : Row :=
  { baseRow with
    aid := some (Cell.int 2), cid := some (Cell.int 3),
    activity_outcome := some "Active", assay_name := some "xyz" }

/-! ### Field-preservation lemmas for the classifier steps -/

@[simp] theorem maskSet_aid (c : Row → Bool) (lab : String) (r : Row) :
    (maskSet c lab r).aid = r.aid := by unfold maskSet; split <;> rfl

@[simp] theorem maskSet_cid (c : Row → Bool) (lab : String) (r : Row) :
    (maskSet c lab r).cid = r.cid := by unfold maskSet; split <;> rfl

@[simp] theorem maskSet_sid (c : Row → Bool) (lab : String) (r : Row) :
    (maskSet c lab r).sid = r.sid := by unfold maskSet; split <;> rfl

@[simp] theorem maskSet_outcome (c : Row → Bool) (lab : String) (r : Row) :
    (maskSet c lab r).activity_outcome = r.activity_outcome := by
  unfold maskSet; split <;> rfl

@[simp] theorem maskSet_assay (c : Row → Bool) (lab : String) (r : Row) :
    (maskSet c lab r).assay_name = r.assay_name := by unfold maskSet; split <;> rfl

@[simp] theorem maskSet_aname (c : Row → Bool) (lab : String) (r : Row) :
    (maskSet c lab r).activity_name = r.activity_name := by
  unfold maskSet; split <;> rfl

@[simp] theorem maskSet_adir (c : Row → Bool) (lab : String) (r : Row) :
    (maskSet c lab r).activity_direction = r.activity_direction := by
  unfold maskSet; split <;> rfl

@[simp] theorem maskSet_tgene (c : Row → Bool) (lab : String) (r : Row) :
    (maskSet c lab r).target_geneid = r.target_geneid := by
  unfold maskSet; split <;> rfl

@[simp] theorem maskSet_url (c : Row → Bool) (lab : String) (r : Row) :
    (maskSet c lab r).activity_url = r.activity_url := by
  unfold maskSet; split <;> rfl

@[simp] theorem step_keyword_aid (r : Row) : (step_keyword r).aid = r.aid := by
  unfold step_keyword; repeat' split
  all_goals rfl

@[simp] theorem step_keyword_cid (r : Row) : (step_keyword r).cid = r.cid := by
  unfold step_keyword; repeat' split
  all_goals rfl

@[simp] theorem step_keyword_sid (r : Row) : (step_keyword r).sid = r.sid := by
  unfold step_keyword; repeat' split
  all_goals rfl

@[simp] theorem step_keyword_outcome (r : Row) :
    (step_keyword r).activity_outcome = r.activity_outcome := by
  unfold step_keyword; repeat' split
  all_goals rfl

@[simp] theorem step_keyword_assay (r : Row) :
    (step_keyword r).assay_name = r.assay_name := by
  unfold step_keyword; repeat' split
  all_goals rfl

@[simp] theorem step_keyword_aname (r : Row) :
    (step_keyword r).activity_name = r.activity_name := by
  unfold step_keyword; repeat' split
  all_goals rfl

@[simp] theorem step_keyword_adir (r : Row) :
    (step_keyword r).activity_direction = r.activity_direction := by
  unfold step_keyword; repeat' split
  all_goals rfl

@[simp] theorem step_keyword_tgene (r : Row) :
    (step_keyword r).target_geneid = r.target_geneid := by
  unfold step_keyword; repeat' split
  all_goals rfl

@[simp] theorem step_keyword_url (r : Row) :
    (step_keyword r).activity_url = r.activity_url := by
  unfold step_keyword; repeat' split
  all_goals rfl

@[simp] theorem step_reset_aid (r : Row) : (step_reset r).aid = r.aid := rfl
@[simp] theorem step_reset_cid (r : Row) : (step_reset r).cid = r.cid := rfl
@[simp] theorem step_reset_sid (r : Row) : (step_reset r).sid = r.sid := rfl
@[simp] theorem step_reset_outcome (r : Row) :
    (step_reset r).activity_outcome = r.activity_outcome := rfl
@[simp] theorem step_reset_assay (r : Row) :
    (step_reset r).assay_name = r.assay_name := rfl
@[simp] theorem step_reset_aname (r : Row) :
    (step_reset r).activity_name = r.activity_name := rfl
@[simp] theorem step_reset_adir (r : Row) :
    (step_reset r).activity_direction = r.activity_direction := rfl
@[simp] theorem step_reset_tgene (r : Row) :
    (step_reset r).target_geneid = r.target_geneid := rfl
@[simp] theorem step_reset_url (r : Row) :
    (step_reset r).activity_url = r.activity_url := rfl

@[simp] theorem classifyRowFull_aid (r : Row) : (classifyRowFull r).aid = r.aid := by
  simp [classifyRowFull, step_aid1215398, step_increasing, step_decreasing,
    step_inducer, step_actindmod, step_substrate, step_km, step_inactive]

@[simp] theorem classifyRowFull_cid (r : Row) : (classifyRowFull r).cid = r.cid := by
  simp [classifyRowFull, step_aid1215398, step_increasing, step_decreasing,
    step_inducer, step_actindmod, step_substrate, step_km, step_inactive]

@[simp] theorem classifyRowFull_sid (r : Row) : (classifyRowFull r).sid = r.sid := by
  simp [classifyRowFull, step_aid1215398, step_increasing, step_decreasing,
    step_inducer, step_actindmod, step_substrate, step_km, step_inactive]

@[simp] theorem classifyRowFull_outcome (r : Row) :
    (classifyRowFull r).activity_outcome = r.activity_outcome := by
  simp [classifyRowFull, step_aid1215398, step_increasing, step_decreasing,
    step_inducer, step_actindmod, step_substrate, step_km, step_inactive]

@[simp] theorem classifyRowFull_assay (r : Row) :
    (classifyRowFull r).assay_name = r.assay_name := by
  simp [classifyRowFull, step_aid1215398, step_increasing, step_decreasing,
    step_inducer, step_actindmod, step_substrate, step_km, step_inactive]

@[simp] theorem classifyRowFull_aname (r : Row) :
    (classifyRowFull r).activity_name = r.activity_name := by
  simp [classifyRowFull, step_aid1215398, step_increasing, step_decreasing,
    step_inducer, step_actindmod, step_substrate, step_km, step_inactive]

@[simp] theorem classifyRowFull_adir (r : Row) :
    (classifyRowFull r).activity_direction = r.activity_direction := by
  simp [classifyRowFull, step_aid1215398, step_increasing, step_decreasing,
    step_inducer, step_actindmod, step_substrate, step_km, step_inactive]

@[simp] theorem classifyRowFull_tgene (r : Row) :
    (classifyRowFull r).target_geneid = r.target_geneid := by
  simp [classifyRowFull, step_aid1215398, step_increasing, step_decreasing,
    step_inducer, step_actindmod, step_substrate, step_km, step_inactive]

@[simp] theorem classifyRowFull_url (r : Row) :
    (classifyRowFull r).activity_url = r.activity_url := by
  simp [classifyRowFull, step_aid1215398, step_increasing, step_decreasing,
    step_inducer, step_actindmod, step_substrate, step_km, step_inactive]

/-! ### Behaviour of the classifier steps -/

theorem maskSet_pos {c : Row → Bool} {r : Row} (lab : String) (h : c r = true) :
    maskSet c lab r = { r with activity := some lab } := by
  unfold maskSet; rw [h]; rfl

theorem maskSet_neg {c : Row → Bool} {r : Row} (lab : String) (h : c r = false) :
    maskSet c lab r = r := by
  unfold maskSet; rw [h]; rfl

theorem step_keyword_noop {r : Row} (h : isActiveRow r = false) :
    step_keyword r = r := by
  unfold step_keyword; rw [h]; rfl

theorem step_km_noop {r : Row} (h : isActiveRow r = false) : step_km r = r := by
  unfold step_km; exact maskSet_neg _ (by rw [h]; rfl)

theorem step_substrate_noop {r : Row} (h : isActiveRow r = false) :
    step_substrate r = r := by
  unfold step_substrate; exact maskSet_neg _ (by rw [h]; rfl)

theorem step_actindmod_noop {r : Row} (h : isActiveRow r = false) :
    step_actindmod r = r := by
  unfold step_actindmod; exact maskSet_neg _ (by rw [h]; rfl)

theorem step_inducer_noop {r : Row} (h : isActiveRow r = false) :
    step_inducer r = r := by
  unfold step_inducer; exact maskSet_neg _ (by rw [h]; rfl)

theorem step_decreasing_noop {r : Row} (h : isActiveRow r = false) :
    step_decreasing r = r := by
  unfold step_decreasing; exact maskSet_neg _ (by rw [h]; rfl)

theorem step_increasing_noop {r : Row} (h : isActiveRow r = false) :
    step_increasing r = r := by
  unfold step_increasing; exact maskSet_neg _ (by rw [h]; rfl)

theorem step_aid1215398_noop {r : Row} (h : isActiveRow r = false) :
    step_aid1215398 r = r := by
  unfold step_aid1215398; exact maskSet_neg _ (by rw [h]; rfl)

theorem isActiveRow_step (r : Row) :
    isActiveRow (step_inactive (step_reset r)) = isActiveRow r := by
  unfold isActiveRow step_inactive
  rw [maskSet_outcome, step_reset_outcome]

/-! ### Characterisation of `determineLabelsAndActivity` -/

theorem classify_ok {rows out : List Row}
    (h : determineLabelsAndActivity rows = Except.ok out) :
    out = rows.map classifyRowFull ∧
      ∀ r ∈ rows, isActiveRow r = true → r.assay_name.isSome = true := by
  unfold determineLabelsAndActivity at h
  by_cases hA : ((rows.map step_reset).map step_inactive).any isActiveRow
  · rw [if_pos hA] at h
    by_cases hAll : ((rows.map step_reset).map step_inactive).all
        (fun r => !isActiveRow r || r.assay_name.isSome)
    · rw [if_pos hAll] at h
      have hout := (Except.ok.inj h).symm
      constructor
      · rw [hout]
        simp only [List.map_map]
        rfl
      · intro r hr hact
        have hmem : step_inactive (step_reset r) ∈
            (rows.map step_reset).map step_inactive :=
          List.mem_map_of_mem _ (List.mem_map_of_mem _ hr)
        have := List.all_eq_true.mp hAll _ hmem
        rw [isActiveRow_step, hact] at this
        simpa [step_inactive] using this
    · rw [if_neg hAll] at h
      cases h
  · rw [if_neg hA] at h
    have hout := (Except.ok.inj h).symm
    have hnone : ∀ r ∈ rows, isActiveRow r = false := by
      intro r hr
      have hmem : step_inactive (step_reset r) ∈
          (rows.map step_reset).map step_inactive :=
        List.mem_map_of_mem _ (List.mem_map_of_mem _ hr)
      have := List.any_eq_false.mp (Bool.of_not_eq_true hA) _ hmem
      rw [isActiveRow_step] at this
      exact Bool.of_not_eq_true this
    constructor
    · rw [hout]
      simp only [List.map_map]
      apply List.map_congr_left
      intro r hr
      have hact : isActiveRow r = false := hnone r hr
      have hact' : isActiveRow (step_inactive (step_reset r)) = false := by
        rw [isActiveRow_step]; exact hact
      show step_inactive (step_reset r) = classifyRowFull r
      unfold classifyRowFull
      rw [step_keyword_noop hact', step_km_noop hact', step_substrate_noop hact',
        step_actindmod_noop hact', step_inducer_noop hact',
        step_decreasing_noop hact', step_increasing_noop hact',
        step_aid1215398_noop hact']
    · intro r hr hact
      rw [hnone r hr] at hact
      cases hact

theorem classify_err {rows : List Row} {r : Row} (hr : r ∈ rows)
    (ha : isActiveRow r = true) (hn : r.assay_name = none) :
    determineLabelsAndActivity rows = Except.error "AttributeError" := by
  unfold determineLabelsAndActivity
  have hmem : step_inactive (step_reset r) ∈
      (rows.map step_reset).map step_inactive :=
    List.mem_map_of_mem _ (List.mem_map_of_mem _ hr)
  have hany : ((rows.map step_reset).map step_inactive).any isActiveRow = true := by
    refine List.any_eq_true.mpr ⟨_, hmem, ?_⟩
    rw [isActiveRow_step]; exact ha
  have hall : ((rows.map step_reset).map step_inactive).all
      (fun r => !isActiveRow r || r.assay_name.isSome) = false := by
    refine Bool.eq_false_iff.mpr (fun hcl => ?_)
    have := List.all_eq_true.mp hcl _ hmem
    rw [isActiveRow_step, ha] at this
    have hass : (step_inactive (step_reset r)).assay_name = none := by
      simpa [step_inactive] using hn
    rw [hass] at this
    simp at this
  rw [hany, hall]
  simp

/-! ### `mapME` (Series.apply with exceptions) -/

theorem mapME_ok_forward {α β : Type} {f : α → Except String β} :
    ∀ {l : List α} {l' : List β}, mapME f l = Except.ok l' →
      ∀ a ∈ l, ∃ b ∈ l', f a = Except.ok b := by
  intro l
  induction l with
  | nil => intro l' _ a ha; cases ha
  | cons x t ih =>
    intro l' h a ha
    unfold mapME at h
    cases hfx : f x with
    | error e => rw [hfx] at h; cases h
    | ok b =>
      rw [hfx] at h
      cases hmt : mapME f t with
      | error e => rw [hmt] at h; cases h
      | ok bs =>
        rw [hmt] at h
        have hl' : l' = b :: bs := (Except.ok.inj h).symm
        subst hl'
        rcases List.mem_cons.mp ha with rfl | hat
        · exact ⟨b, List.mem_cons_self _ _, hfx⟩
        · obtain ⟨b', hb', hfb'⟩ := ih hmt a hat
          exact ⟨b', List.mem_cons_of_mem _ hb', hfb'⟩

theorem mapME_ok_back {α β : Type} {f : α → Except String β} :
    ∀ {l : List α} {l' : List β}, mapME f l = Except.ok l' →
      ∀ b ∈ l', ∃ a ∈ l, f a = Except.ok b := by
  intro l
  induction l with
  | nil =>
    intro l' h b hb
    unfold mapME at h
    have hl' : l' = [] := (Except.ok.inj h).symm
    subst hl'; cases hb
  | cons x t ih =>
    intro l' h b hb
    unfold mapME at h
    cases hfx : f x with
    | error e => rw [hfx] at h; cases h
    | ok c =>
      rw [hfx] at h
      cases hmt : mapME f t with
      | error e => rw [hmt] at h; cases h
      | ok bs =>
        rw [hmt] at h
        have hl' : l' = c :: bs := (Except.ok.inj h).symm
        subst hl'
        rcases List.mem_cons.mp hb with rfl | hbt
        · exact ⟨x, List.mem_cons_self _ _, hfx⟩
        · obtain ⟨a, ha, hfa⟩ := ih hmt b hbt
          exact ⟨a, List.mem_cons_of_mem _ ha, hfa⟩

/-! ### Pipeline stage lemmas -/

theorem stage1_mem {chunk : List Row} {r : Row} (h : r ∈ stage1 chunk) :
    r ∈ chunk ∧ r.aid.isSome = true ∧ r.cid.isSome = true := by
  have := List.mem_filter.mp h
  exact ⟨this.1, (Bool.and_eq_true _ _).mp this.2⟩

@[simp] theorem computeMeasured_aid (r : Row) : (computeMeasured r).aid = r.aid := rfl
@[simp] theorem computeMeasured_cid (r : Row) : (computeMeasured r).cid = r.cid := rfl
@[simp] theorem computeMeasured_sid (r : Row) : (computeMeasured r).sid = r.sid := rfl
@[simp] theorem computeMeasured_outcome (r : Row) :
    (computeMeasured r).activity_outcome = r.activity_outcome := rfl
@[simp] theorem computeMeasured_assay (r : Row) :
    (computeMeasured r).assay_name = r.assay_name := rfl
@[simp] theorem computeMeasured_aname (r : Row) :
    (computeMeasured r).activity_name = r.activity_name := rfl
@[simp] theorem computeMeasured_adir (r : Row) :
    (computeMeasured r).activity_direction = r.activity_direction := rfl
@[simp] theorem computeMeasured_tgene (r : Row) :
    (computeMeasured r).target_geneid = r.target_geneid := rfl

theorem addInfo_cases {allData : List (RefKey × RefRec)} {r r' : Row}
    (h : addAllDataConnectedInfo allData r = Except.ok r') :
    r' = r ∨ ∃ a c q, parseCell r.aid = some a ∧ parseCell r.cid = some c ∧
      List.lookup (a, c, r.activity_outcome) allData = some q ∧
      r' = applyOverlay r q := by
  unfold addAllDataConnectedInfo at h
  cases hA : parseCell r.aid with
  | none => rw [hA] at h; cases h
  | some a =>
    rw [hA] at h
    cases hC : parseCell r.cid with
    | none => rw [hC] at h; cases h
    | some c =>
      rw [hC] at h
      have h' : (match List.lookup (a, c, r.activity_outcome) allData with
          | some q => Except.ok (applyOverlay r q)
          | none => Except.ok r) = Except.ok r' := h
      cases hL : List.lookup (a, c, r.activity_outcome) allData with
      | none =>
        rw [hL] at h'
        exact Or.inl (Except.ok.inj h').symm
      | some q =>
        rw [hL] at h'
        exact Or.inr ⟨a, c, q, rfl, rfl, hL, (Except.ok.inj h').symm⟩

theorem addInfo_err {allData : List (RefKey × RefRec)} {r : Row}
    (h : parseCell r.aid = none ∨ parseCell r.cid = none) :
    addAllDataConnectedInfo allData r = Except.error "ValueError" := by
  unfold addAllDataConnectedInfo
  rcases h with h | h
  · rw [h]
  · rw [h]
    cases parseCell r.aid <;> try rfl

theorem addInfo_keys {allData : List (RefKey × RefRec)} {r r' : Row}
    (h : addAllDataConnectedInfo allData r = Except.ok r')
    (ha : r.aid.isSome = true) (hc : r.cid.isSome = true) :
    r'.aid.isSome = true ∧ r'.cid.isSome = true := by
  rcases addInfo_cases h with rfl | ⟨a, c, q, _, _, _, rfl⟩
  · exact ⟨ha, hc⟩
  · exact ⟨rfl, rfl⟩

theorem stage4_mem {hasPhen : Bool} {l : List Row} {r : Row}
    (h : r ∈ stage4 hasPhen l) :
    ∃ r0 ∈ l, r.aid = r0.aid ∧ r.cid = r0.cid ∧ r.sid = r0.sid ∧
      r.activity_outcome = r0.activity_outcome ∧ r.assay_name = r0.assay_name ∧
      r.activity_name = r0.activity_name ∧
      r.activity_direction = r0.activity_direction ∧
      r.target_geneid = r0.target_geneid ∧ r.activity_url = r0.activity_url := by
  unfold stage4 at h
  split at h
  · unfold propagatePhenotype at h
    obtain ⟨x, hx, hxr⟩ := List.mem_map.mp h
    have hxl : x ∈ l := (List.mem_filter.mp hx).1
    refine ⟨x, hxl, ?_⟩
    split at hxr
    · rw [← hxr]
      exact ⟨rfl, rfl, rfl, rfl, rfl, rfl, rfl, rfl, rfl⟩
    · rw [← hxr]
      exact ⟨rfl, rfl, rfl, rfl, rfl, rfl, rfl, rfl, rfl⟩
  · exact ⟨r, h, rfl, rfl, rfl, rfl, rfl, rfl, rfl, rfl, rfl⟩

theorem stage4_false (l : List Row) : stage4 false l = l := by
  unfold stage4
  rfl

@[simp] theorem deriveUrl_aid (b : Bool) (r : Row) : (deriveUrl b r).aid = r.aid := by
  unfold deriveUrl; split <;> rfl
@[simp] theorem deriveUrl_cid (b : Bool) (r : Row) : (deriveUrl b r).cid = r.cid := by
  unfold deriveUrl; split <;> rfl
@[simp] theorem deriveUrl_sid (b : Bool) (r : Row) : (deriveUrl b r).sid = r.sid := by
  unfold deriveUrl; split <;> rfl
@[simp] theorem deriveUrl_outcome (b : Bool) (r : Row) :
    (deriveUrl b r).activity_outcome = r.activity_outcome := by
  unfold deriveUrl; split <;> rfl
@[simp] theorem deriveUrl_assay (b : Bool) (r : Row) :
    (deriveUrl b r).assay_name = r.assay_name := by
  unfold deriveUrl; split <;> rfl
@[simp] theorem deriveUrl_aname (b : Bool) (r : Row) :
    (deriveUrl b r).activity_name = r.activity_name := by
  unfold deriveUrl; split <;> rfl
@[simp] theorem deriveUrl_adir (b : Bool) (r : Row) :
    (deriveUrl b r).activity_direction = r.activity_direction := by
  unfold deriveUrl; split <;> rfl
@[simp] theorem deriveUrl_tgene (b : Bool) (r : Row) :
    (deriveUrl b r).target_geneid = r.target_geneid := by
  unfold deriveUrl; split <;> rfl

theorem deriveUrl_url (b : Bool) (r : Row) :
    (deriveUrl b r).activity_url =
      if b then some (mkActivityUrl r.aid r.sid) else none := by
  unfold deriveUrl
  cases b <;> rfl

theorem sentinelKeep_not_both {r : Row} (h : sentinelKeep r = true) :
    ¬(r.aid = some (Cell.int 1) ∧ r.cid = some (Cell.int 1)) := by
  rintro ⟨ha, hc⟩
  unfold sentinelKeep at h
  rw [ha, hc] at h
  simp at h

theorem sentinelKeep_deriveUrl (b : Bool) (r : Row) :
    sentinelKeep (deriveUrl b r) = sentinelKeep r := by
  unfold sentinelKeep
  rw [deriveUrl_aid, deriveUrl_cid]

/-- Provenance of a row appended by `process_partition`: the classifier's
image of a sentinel-surviving, URL-derived row of the augmented chunk. -/
theorem mem_run {allData : List (RefKey × RefRec)} {hasSid hasPhen : Bool}
    {chunk : List Row} {r : Row}
    (h : r ∈ process_partition_run allData hasSid hasPhen chunk) :
    ∃ df2 r4,
      mapME (addAllDataConnectedInfo allData) ((stage1 chunk).map computeMeasured)
        = Except.ok df2 ∧
      r4 ∈ stage4 hasPhen df2 ∧ sentinelKeep (deriveUrl hasSid r4) = true ∧
      r = classifyRowFull (deriveUrl hasSid r4) := by
  unfold process_partition_run at h
  cases hp : process_partition allData hasSid hasPhen chunk with
  | error e => rw [hp] at h; cases h
  | ok out =>
    rw [hp] at h
    unfold process_partition at hp
    split at hp
    · have hout : out = [] := (Except.ok.inj hp).symm
      rw [hout] at h; cases h
    · cases hm : mapME (addAllDataConnectedInfo allData)
          ((stage1 chunk).map computeMeasured) with
      | error e => rw [hm] at hp; cases hp
      | ok df2 =>
        rw [hm] at hp
        obtain ⟨hout, _⟩ := classify_ok hp
        rw [hout] at h
        obtain ⟨r5, hr5, hr5r⟩ := List.mem_map.mp h
        obtain ⟨hr5m, hkeep⟩ := List.mem_filter.mp hr5
        obtain ⟨r4, hr4, hr4r⟩ := List.mem_map.mp hr5m
        refine ⟨df2, r4, ?_, hr4, ?_, ?_⟩
        · rfl
        · rw [hr4r]; exact hkeep
        · rw [← hr5r, hr4r]

/-! ### The keyword scan of `determine_active_label` -/

theorem leadsList_length : ∀ (p l : List Char), leadsList p l = true →
    p.length ≤ l.length := by
  intro p
  induction p with
  | nil => intro l _; exact Nat.zero_le _
  | cons a as ih =>
    intro l h
    cases l with
    | nil => cases h
    | cons b bs =>
      have := (Bool.and_eq_true _ _).mp h
      exact Nat.succ_le_succ (ih bs this.2)

theorem strFindAux_bound (needle : List Char) : ∀ (hay : List Char) (p : Nat),
    strFindAux needle hay = some p → p + needle.length ≤ hay.length := by
  intro hay
  induction hay with
  | nil =>
    intro p h
    unfold strFindAux at h
    split at h
    · cases h
      rename_i hl
      simpa using leadsList_length _ _ hl
    · cases h
  | cons c t ih =>
    intro p h
    unfold strFindAux at h
    split at h
    · cases h
      rename_i hl
      simpa using leadsList_length _ _ hl
    · cases hq : strFindAux needle t with
      | none => rw [hq] at h; cases h
      | some q =>
        rw [hq] at h
        have hp : p = q + 1 := (Option.some.inj h).symm
        subst hp
        have := ih q hq
        simp only [List.length_cons]
        omega

theorem scanStep_none {name : List Char} {k : String}
    (acc : Option String × Nat) (h : strFindAux k.data name = none) :
    scanStep name k acc = acc := by
  unfold scanStep
  rw [h]

theorem scanStep_some_lt {name : List Char} {k : String} {p : Nat}
    (acc : Option String × Nat) (h : strFindAux k.data name = some p)
    (hlt : p < acc.2) : scanStep name k acc = (some k, p) := by
  unfold scanStep
  rw [h]
  show (if p < acc.2 then (some k, p) else acc) = (some k, p)
  exact if_pos hlt

theorem scanStep_some_ge {name : List Char} {k : String} {p : Nat}
    (acc : Option String × Nat) (h : strFindAux k.data name = some p)
    (hge : ¬p < acc.2) : scanStep name k acc = acc := by
  unfold scanStep
  rw [h]
  show (if p < acc.2 then (some k, p) else acc) = acc
  exact if_neg hge

theorem scanKeywords_none (name : List Char) : ∀ (ks : List String)
    (acc : Option String × Nat),
    (∀ k ∈ ks, strFindAux k.data name = none) →
    scanKeywords name ks acc = acc := by
  intro ks
  induction ks with
  | nil => intro acc _; rfl
  | cons k' ks ih =>
    intro acc h
    unfold scanKeywords
    rw [scanStep_none acc (h k' (List.mem_cons_self _ _))]
    exact ih acc (fun k hk => h k (List.mem_cons_of_mem _ hk))

theorem scanKeywords_keep (name : List Char) : ∀ (ks : List String) (k : String)
    (p : Nat),
    (∀ k' ∈ ks, ∀ p', strFindAux k'.data name = some p' → ¬p' < p) →
    scanKeywords name ks (some k, p) = (some k, p) := by
  intro ks
  induction ks with
  | nil => intro k p _; rfl
  | cons k' ks ih =>
    intro k p h
    unfold scanKeywords
    cases hf : strFindAux k'.data name with
    | none =>
      rw [scanStep_none _ hf]
      exact ih k p (fun k'' hk'' => h k'' (List.mem_cons_of_mem _ hk''))
    | some p' =>
      have hnlt : ¬p' < p := h k' (List.mem_cons_self _ _) p' hf
      rw [scanStep_some_ge _ hf hnlt]
      exact ih k p (fun k'' hk'' => h k'' (List.mem_cons_of_mem _ hk''))

theorem scanKeywords_main (name : List Char) (k : String) (l₂ : List String)
    (p : Nat) (hf : strFindAux k.data name = some p)
    (h₂ : ∀ k' ∈ l₂, ∀ p', strFindAux k'.data name = some p' → ¬p' < p) :
    ∀ (l₁ : List String) (bk : Option String) (bp : Nat), p < bp →
    (∀ k' ∈ l₁, ∀ p', strFindAux k'.data name = some p' → p < p') →
    scanKeywords name (l₁ ++ k :: l₂) (bk, bp) = (some k, p) := by
  intro l₁
  induction l₁ with
  | nil =>
    intro bk bp hbp _
    rw [List.nil_append]
    unfold scanKeywords
    rw [scanStep_some_lt (bk, bp) hf hbp]
    exact scanKeywords_keep name l₂ k p h₂
  | cons k' l₁ ih =>
    intro bk bp hbp h₁
    rw [List.cons_append]
    unfold scanKeywords
    cases hf' : strFindAux k'.data name with
    | none =>
      rw [scanStep_none _ hf']
      exact ih bk bp hbp (fun k'' hk'' => h₁ k'' (List.mem_cons_of_mem _ hk''))
    | some p' =>
      have hpp' : p < p' := h₁ k' (List.mem_cons_self _ _) p' hf'
      by_cases hc : p' < bp
      · rw [scanStep_some_lt (bk, bp) hf' hc]
        exact ih (some k') p' hpp'
          (fun k'' hk'' => h₁ k'' (List.mem_cons_of_mem _ hk''))
      · rw [scanStep_some_ge (bk, bp) hf' hc]
        exact ih bk bp hbp (fun k'' hk'' => h₁ k'' (List.mem_cons_of_mem _ hk''))

theorem scanKeywords_fst_mem (name : List Char) : ∀ (ks : List String)
    (acc : Option String × Nat) (k : String),
    (scanKeywords name ks acc).1 = some k → k ∈ ks ∨ acc.1 = some k := by
  intro ks
  induction ks with
  | nil => intro acc k h; exact Or.inr h
  | cons k' ks ih =>
    intro acc k h
    unfold scanKeywords at h
    cases hf : strFindAux k'.data name with
    | none =>
      rw [scanStep_none _ hf] at h
      rcases ih acc k h with hks | hacc
      · exact Or.inl (List.mem_cons_of_mem _ hks)
      · exact Or.inr hacc
    | some p =>
      by_cases hc : p < acc.2
      · rw [scanStep_some_lt acc hf hc] at h
        rcases ih (some k', p) k h with hks | hacc
        · exact Or.inl (List.mem_cons_of_mem _ hks)
        · have : k' = k := Option.some.inj hacc
          exact Or.inl (this ▸ List.mem_cons_self _ _)
      · rw [scanStep_some_ge acc hf hc] at h
        rcases ih acc k h with hks | hacc
        · exact Or.inl (List.mem_cons_of_mem _ hks)
        · exact Or.inr hacc

theorem keywordToLabel_mem : ∀ k ∈ all_keywords, keywordToLabel k ∈ nineLabels := by
  decide

theorem all_keywords_ne_empty : ∀ k ∈ all_keywords, 1 ≤ k.data.length := by
  decide

theorem determine_active_label_mem (s : String) :
    determine_active_label s ∈ nineLabels := by
  unfold determine_active_label
  cases h : (scanKeywords (pyLower s).data all_keywords
      (none, (pyLower s).data.length)).1 with
  | none => decide
  | some k =>
    rcases scanKeywords_fst_mem _ _ _ _ h with hk | habs
    · show keywordToLabel k ∈ nineLabels
      exact keywordToLabel_mem k hk
    · cases habs

/-! ### The reference-index merge -/

theorem lastRowValue_nil {V : Type} (k : RefKey) :
    lastRowValue ([] : List (RefKey × V)) k = none := rfl

theorem lastRowValue_cons {V : Type} (q : RefKey × V) (t : List (RefKey × V))
    (k : RefKey) :
    lastRowValue (q :: t) k =
      match lastRowValue t k with
      | some v => some v
      | none => if q.1 == k then some q.2 else none := by
  unfold lastRowValue
  rw [List.reverse_cons, List.find?_append]
  cases h : (t.reverse.find? fun p => p.1 == k) with
  | some v => rfl
  | none =>
    show (List.find? (fun p => p.1 == k) [q]).map Prod.snd = _
    cases hq : (q.1 == k) with
    | true => simp [List.find?, hq]
    | false => simp [List.find?, hq]

theorem chunkDict_foldl {V : Type} : ∀ (rows : List (RefKey × V))
    (acc : RefKey → Option V) (k : RefKey),
    (rows.foldl (fun a q => dinsert q.1 q.2 a) acc) k =
      match lastRowValue rows k with
      | some v => some v
      | none => acc k := by
  intro rows
  induction rows with
  | nil => intro acc k; rfl
  | cons q t ih =>
    intro acc k
    rw [List.foldl_cons, ih, lastRowValue_cons]
    cases hlt : lastRowValue t k with
    | some v => rfl
    | none =>
      show dinsert q.1 q.2 acc k = _
      unfold dinsert
      by_cases hk : k = q.1
      · rw [if_pos hk]
        have hb : (q.1 == k) = true := by rw [hk]; exact beq_self_eq_true _
        rw [hb]
        rfl
      · rw [if_neg hk]
        have hb : (q.1 == k) = false := by
          refine beq_eq_false_iff_ne.mpr ?_
          exact fun hq => hk hq.symm
        rw [hb]
        rfl

theorem chunkDict_eq {V : Type} (rows : List (RefKey × V)) (k : RefKey) :
    chunkDict rows k = lastRowValue rows k := by
  unfold chunkDict
  rw [chunkDict_foldl]
  cases lastRowValue rows k <;> rfl

theorem lastChunkValue_nil {V : Type} (k : RefKey) :
    lastChunkValue ([] : List (List (RefKey × V))) k = none := rfl

theorem lastChunkValue_cons {V : Type} (ch : List (RefKey × V))
    (t : List (List (RefKey × V))) (k : RefKey) :
    lastChunkValue (ch :: t) k =
      match lastChunkValue t k with
      | some v => some v
      | none => lastRowValue ch k := by
  unfold lastChunkValue
  rw [List.reverse_cons, List.findSome?_append]
  cases h : t.reverse.findSome? (fun c => lastRowValue c k) with
  | some v => rfl
  | none =>
    show List.findSome? (fun c => lastRowValue c k) [ch] = lastRowValue ch k
    rw [List.findSome?_cons]
    cases hc : lastRowValue ch k with
    | some v => rfl
    | none => rfl

theorem load_foldl {V : Type} : ∀ (chunks : List (List (RefKey × V)))
    (acc : RefKey → Option V) (k : RefKey),
    (chunks.foldl (fun a ch => dictUpd a (chunkDict ch)) acc) k =
      match lastChunkValue chunks k with
      | some v => some v
      | none => acc k := by
  intro chunks
  induction chunks with
  | nil => intro acc k; rfl
  | cons ch t ih =>
    intro acc k
    rw [List.foldl_cons, ih, lastChunkValue_cons]
    cases hlt : lastChunkValue t k with
    | some v => rfl
    | none =>
      show dictUpd acc (chunkDict ch) k = _
      unfold dictUpd
      rw [chunkDict_eq]

theorem load_eq_lastChunkValue {V : Type} (chunks : List (List (RefKey × V)))
    (k : RefKey) : load_all_data_connected chunks k = lastChunkValue chunks k := by
  unfold load_all_data_connected
  rw [load_foldl]
  cases lastChunkValue chunks k <;> rfl

theorem lastRowValue_none_of_no_key {V : Type} {ch : List (RefKey × V)}
    {k : RefKey} (h : chunkHasKey ch k = false) : lastRowValue ch k = none := by
  unfold lastRowValue
  rw [Option.map_eq_none']
  rw [List.find?_eq_none]
  intro q hq
  have hqch : q ∈ ch := List.mem_reverse.mp hq
  exact List.any_eq_false.mp h q hqch

theorem chunkHasKey_of_lastRowValue {V : Type} {ch : List (RefKey × V)}
    {k : RefKey} {v : V} (h : lastRowValue ch k = some v) :
    chunkHasKey ch k = true := by
  by_cases hk : chunkHasKey ch k = true
  · exact hk
  · rw [lastRowValue_none_of_no_key (Bool.eq_false_iff.mpr hk)] at h
    cases h

theorem lastChunkValue_perm {V : Type}
    {c1 c2 : List (List (RefKey × V))} (hperm : c1.Perm c2) :
    c1.Pairwise
      (fun x y => ∀ k, chunkHasKey x k = true → chunkHasKey y k = false) →
    ∀ k, lastChunkValue c1 k = lastChunkValue c2 k := by
  induction hperm with
  | nil => intro _ k; rfl
  | cons x hp ih =>
    intro hdisj k
    rw [lastChunkValue_cons, lastChunkValue_cons,
      ih (List.Pairwise.of_cons hdisj) k]
  | swap x y t =>
    intro hdisj k
    rw [lastChunkValue_cons, lastChunkValue_cons, lastChunkValue_cons,
      lastChunkValue_cons]
    cases hlt : lastChunkValue t k with
    | some v => rfl
    | none =>
      have hyx : ∀ k, chunkHasKey y k = true → chunkHasKey x k = false :=
        (List.pairwise_cons.mp hdisj).1 x (List.mem_cons_self _ _)
      cases hx : lastRowValue x k with
      | some vx =>
        cases hy : lastRowValue y k with
        | some vy =>
          have h1 := chunkHasKey_of_lastRowValue hy
          have h2 := hyx k h1
          rw [lastRowValue_none_of_no_key h2] at hx
          cases hx
        | none => rfl
      | none =>
        cases lastRowValue y k <;> rfl
  | trans h₁ h₂ ih₁ ih₂ =>
    intro hdisj k
    have hsym : ∀ {x y : List (RefKey × V)},
        (∀ k, chunkHasKey x k = true → chunkHasKey y k = false) →
        (∀ k, chunkHasKey y k = true → chunkHasKey x k = false) := by
      intro x y hxy k hyk
      cases hxk : chunkHasKey x k with
      | false => rfl
      | true =>
        rw [hxy k hxk] at hyk
        cases hyk
    have hdisj2 := (List.Perm.pairwise_iff (fun h => hsym h) h₁).mp hdisj
    rw [ih₁ hdisj k, ih₂ hdisj2 k]

/-! ### Claim theorems -/

theorem maskSet_label_mem {c : Row → Bool} {lab : String} {r : Row}
    (hlab : lab ∈ nineLabels) (h : ∃ l, r.activity = some l ∧ l ∈ nineLabels) :
    ∃ l, (maskSet c lab r).activity = some l ∧ l ∈ nineLabels := by
  unfold maskSet
  split
  · exact ⟨lab, rfl, hlab⟩
  · exact h

theorem step_keyword_active {r : Row} {an : String} (ha : isActiveRow r = true)
    (han : r.assay_name = some an) :
    step_keyword r = { r with activity := some (determine_active_label an) } := by
  unfold step_keyword
  rw [ha, han]
  rfl

/-- C1: for every row written to either output artifact (the relationship
table and the compound-gene projection), `aid` and `cid` are non-missing and
the row is not the `(aid, cid) = (1, 1)` sentinel. -/
theorem c1_keys_present_no_sentinel (allData : List (RefKey × RefRec))
    (hasSid hasPhen : Bool) (chunk : List Row) :
    (∀ r ∈ process_partition_run allData hasSid hasPhen chunk,
      r.aid.isSome = true ∧ r.cid.isSome = true ∧
        ¬(r.aid = some (Cell.int 1) ∧ r.cid = some (Cell.int 1))) ∧
    (∀ p ∈ process_partition_proj allData hasSid hasPhen chunk,
      p.aid.isSome = true ∧ p.cid.isSome = true ∧
        ¬(p.aid = some (Cell.int 1) ∧ p.cid = some (Cell.int 1))) := by
  have hmain : ∀ r ∈ process_partition_run allData hasSid hasPhen chunk,
      r.aid.isSome = true ∧ r.cid.isSome = true ∧
        ¬(r.aid = some (Cell.int 1) ∧ r.cid = some (Cell.int 1)) := by
    intro r hr
    obtain ⟨df2, r4, hm, hr4, hkeep, hrfl⟩ := mem_run hr
    have haidr : r.aid = r4.aid := by rw [hrfl]; simp
    have hcidr : r.cid = r4.cid := by rw [hrfl]; simp
    obtain ⟨r3, hr3, hf1, hf2, _⟩ := stage4_mem hr4
    obtain ⟨a, ham, haok⟩ := mapME_ok_back hm r3 hr3
    obtain ⟨a0, ha0, harfl⟩ := List.mem_map.mp ham
    obtain ⟨_, ha0aid, ha0cid⟩ := stage1_mem ha0
    have haaid : a.aid.isSome = true := by rw [← harfl]; exact ha0aid
    have hacid : a.cid.isSome = true := by rw [← harfl]; exact ha0cid
    obtain ⟨h3aid, h3cid⟩ := addInfo_keys haok haaid hacid
    refine ⟨?_, ?_, ?_⟩
    · rw [haidr, hf1]; exact h3aid
    · rw [hcidr, hf2]; exact h3cid
    · have hkeep4 : sentinelKeep r4 = true := by
        rw [← sentinelKeep_deriveUrl hasSid r4]; exact hkeep
      have := sentinelKeep_not_both hkeep4
      rw [haidr, hcidr]
      exact this
  refine ⟨hmain, ?_⟩
  intro p hp
  obtain ⟨r, hr, hrp⟩ := List.mem_map.mp hp
  obtain ⟨h1, h2, h3⟩ := hmain r hr
  rw [← hrp]
  exact ⟨h1, h2, h3⟩

/-- C1 witness: the concrete Inactive row `rowInact5` is written as
`rowInact5_out`, and the theorem's conclusion holds for it. -/
theorem c1_witness :
    rowInact5_out ∈ process_partition_run [] true false [rowInact5] ∧
    (rowInact5_out.aid.isSome = true ∧ rowInact5_out.cid.isSome = true ∧
      ¬(rowInact5_out.aid = some (Cell.int 1) ∧
        rowInact5_out.cid = some (Cell.int 1))) :=
  ⟨by decide,
    (c1_keys_present_no_sentinel [] true false [rowInact5]).1 _ (by decide)⟩

/-- C2 (counterexample): a row whose `activity_outcome` is `Inconclusive`
(neither `Active` nor `Inactive`) leaves `activity` missing (`None`), so the
classifier is not total over arbitrary input rows. -/
theorem c2_counterexample :
    (determineLabelsAndActivity [rowInconc]).map (List.map Row.activity)
      = Except.ok [none] ∧
    ∀ l ∈ nineLabels, (none : Option String) ≠ some l :=
  ⟨rfl, by decide⟩

/-- C2 (amended): for every row whose `activity_outcome` is `Inactive` or
`Active`, a successful classification assigns `activity` one of the nine
labels; rows with any other outcome keep `activity` missing. -/
theorem c2_label_total_on_active_inactive (rows out : List Row) (r : Row)
    (h : determineLabelsAndActivity rows = Except.ok out) (hr : r ∈ out)
    (ho : r.activity_outcome = some "Inactive" ∨
      r.activity_outcome = some "Active") :
    ∃ l, r.activity = some l ∧ l ∈ nineLabels := by
  obtain ⟨hout, hguard⟩ := classify_ok h
  subst hout
  obtain ⟨r0, hr0, rfl⟩ := List.mem_map.mp hr
  have ho0 : r0.activity_outcome = some "Inactive" ∨
      r0.activity_outcome = some "Active" := by simpa using ho
  rcases ho0 with hI | hA
  · have hna : isActiveRow r0 = false := by
      unfold isActiveRow; rw [hI]; decide
    have hact' : isActiveRow (step_inactive (step_reset r0)) = false := by
      rw [isActiveRow_step]; exact hna
    have hcl : classifyRowFull r0 = step_inactive (step_reset r0) := by
      unfold classifyRowFull
      rw [step_keyword_noop hact', step_km_noop hact', step_substrate_noop hact',
        step_actindmod_noop hact', step_inducer_noop hact',
        step_decreasing_noop hact', step_increasing_noop hact',
        step_aid1215398_noop hact']
    rw [hcl]
    have hcond : ((step_reset r0).activity_outcome == some "Inactive") = true := by
      rw [step_reset_outcome, hI]; decide
    refine ⟨"Inactive", ?_, by decide⟩
    show (step_inactive (step_reset r0)).activity = some "Inactive"
    unfold step_inactive
    rw [maskSet_pos _ hcond]
  · have hact0 : isActiveRow r0 = true := by
      unfold isActiveRow; rw [hA]; decide
    obtain ⟨an, han⟩ := Option.isSome_iff_exists.mp (hguard r0 hr0 hact0)
    have hact' : isActiveRow (step_inactive (step_reset r0)) = true := by
      rw [isActiveRow_step]; exact hact0
    have han' : (step_inactive (step_reset r0)).assay_name = some an := by
      simpa [step_inactive] using han
    show ∃ l, (classifyRowFull r0).activity = some l ∧ l ∈ nineLabels
    unfold classifyRowFull
    rw [step_keyword_active hact' han']
    exact maskSet_label_mem (by decide)
      (maskSet_label_mem (by decide)
        (maskSet_label_mem (by decide)
          (maskSet_label_mem (by decide)
            (maskSet_label_mem (by decide)
              (maskSet_label_mem (by decide)
                (maskSet_label_mem (by decide)
                  ⟨determine_active_label an, rfl,
                    determine_active_label_mem an⟩))))))

/-- C2 witness: applying the amended theorem to the concrete Inactive row
`rowInact`. -/
theorem c2_witness :
    determineLabelsAndActivity [rowInact] = Except.ok [rowInact_out] ∧
    ∃ l, rowInact_out.activity = some l ∧ l ∈ nineLabels :=
  ⟨rfl,
    c2_label_total_on_active_inactive [rowInact] [rowInact_out] rowInact_out
      rfl (by decide) (Or.inl rfl)⟩

/-- C3: for the keyword step (`determine_active_label`, applied to every
Active row's assay name), (a) if no keyword occurs in the case-folded assay
name the label defaults to `Inhibitor/Inducer/Modulator`; (b) if `k` occurs
at the earliest position among all occurring keywords, and every keyword
listed before `k` occurs only strictly later, the label is `k`'s label
(so on position ties the keyword first in list order wins). -/
theorem c3_keyword_earliest_position (s : String) :
    ((∀ k ∈ all_keywords, strFind (pyLower s) k = none) →
      determine_active_label s = "Inhibitor/Inducer/Modulator") ∧
    (∀ (l₁ : List String) (k : String) (l₂ : List String) (p : Nat),
      all_keywords = l₁ ++ k :: l₂ →
      strFind (pyLower s) k = some p →
      (∀ k' ∈ all_keywords, ∀ p', strFind (pyLower s) k' = some p' → p ≤ p') →
      (∀ k' ∈ l₁, ∀ p', strFind (pyLower s) k' = some p' → p < p') →
      determine_active_label s = keywordToLabel k) := by
  constructor
  · intro h
    unfold determine_active_label
    rw [scanKeywords_none (pyLower s).data all_keywords _ (fun k hk => h k hk)]
  · intro l₁ k l₂ p heq hf hmin hstrict
    unfold determine_active_label
    rw [heq]
    have hkmem : k ∈ all_keywords := by
      rw [heq]; exact List.mem_append_right _ (List.mem_cons_self _ _)
    have hklen : 1 ≤ k.data.length := all_keywords_ne_empty k hkmem
    have hbound := strFindAux_bound k.data (pyLower s).data p hf
    have hplen : p < (pyLower s).data.length := by omega
    have h₂ : ∀ k' ∈ l₂, ∀ p',
        strFindAux k'.data (pyLower s).data = some p' → ¬p' < p := by
      intro k' hk' p' hp'
      have hk'mem : k' ∈ all_keywords := by
        rw [heq]
        exact List.mem_append_right _ (List.mem_cons_of_mem _ hk')
      have := hmin k' hk'mem p' hp'
      omega
    rw [scanKeywords_main (pyLower s).data k l₂ p hf h₂ l₁ none
      (pyLower s).data.length hplen
      (fun k' hk' p' hp' => hstrict k' hk' p' hp')]

/-- C3 witness: in the assay name `bind` only the keyword `bind` occurs
(at position 0), with 40 keywords listed before it, and the theorem yields
its label. -/
theorem c3_witness : determine_active_label "bind" = keywordToLabel "bind" := by
  have hnone : ∀ k' ∈ all_keywords.take 40, strFind (pyLower "bind") k' = none := by
    decide
  exact (c3_keyword_earliest_position "bind").2 (all_keywords.take 40) "bind"
    (all_keywords.drop 41) 0 (by decide) (by decide)
    (fun k' _ p' _ => Nat.zero_le p')
    (fun k' hk' p' hp' => by rw [hnone k' hk'] at hp'; cases hp')

/-- C4: for every row with outcome `Active` and `aid = 1215398`, the final
`activity` is `Inactivator` — line 379 is the last masked assignment, so it
overrides every earlier rule. -/
theorem c4_aid1215398_forces_inactivator (rows out : List Row) (r : Row)
    (h : determineLabelsAndActivity rows = Except.ok out) (hr : r ∈ out)
    (ha : r.activity_outcome = some "Active")
    (haid : r.aid = some (Cell.int 1215398)) :
    r.activity = some "Inactivator" := by
  obtain ⟨hout, _⟩ := classify_ok h
  subst hout
  obtain ⟨r0, hr0, rfl⟩ := List.mem_map.mp hr
  have ha0 : r0.activity_outcome = some "Active" := by simpa using ha
  have haid0 : r0.aid = some (Cell.int 1215398) := by simpa using haid
  have hZo : (step_increasing (step_decreasing (step_inducer (step_actindmod
      (step_substrate (step_km (step_keyword (step_inactive
        (step_reset r0))))))))).activity_outcome = some "Active" := by
    simpa [step_increasing, step_decreasing, step_inducer, step_actindmod,
      step_substrate, step_km, step_inactive] using ha0
  have hZa : (step_increasing (step_decreasing (step_inducer (step_actindmod
      (step_substrate (step_km (step_keyword (step_inactive
        (step_reset r0))))))))).aid = some (Cell.int 1215398) := by
    simpa [step_increasing, step_decreasing, step_inducer, step_actindmod,
      step_substrate, step_km, step_inactive] using haid0
  have hcond : (isActiveRow (step_increasing (step_decreasing (step_inducer
      (step_actindmod (step_substrate (step_km (step_keyword (step_inactive
        (step_reset r0))))))))) &&
      ((step_increasing (step_decreasing (step_inducer (step_actindmod
        (step_substrate (step_km (step_keyword (step_inactive
          (step_reset r0))))))))).aid == some (Cell.int 1215398))) = true := by
    unfold isActiveRow
    rw [hZo, hZa]
    decide
  show (step_aid1215398 (step_increasing (step_decreasing (step_inducer
    (step_actindmod (step_substrate (step_km (step_keyword (step_inactive
      (step_reset r0)))))))))).activity = some "Inactivator"
  unfold step_aid1215398
  rw [maskSet_pos _ hcond]

/-- C4 witness: the concrete Active row `rowSpecialAid` with `aid = 1215398`
gets label `Inactivator`. -/
theorem c4_witness :
    determineLabelsAndActivity [rowSpecialAid] = Except.ok [rowSpecialAid_out] ∧
    rowSpecialAid_out.activity = some "Inactivator" :=
  ⟨rfl,
    c4_aid1215398_forces_inactivator [rowSpecialAid] [rowSpecialAid_out]
      rowSpecialAid_out rfl (by decide) rfl rfl⟩

/-- C5 (counterexample): an Active row whose `activity_direction` contains
`decreasing` but also `increasing` ends with label `Activator`, not
`Inhibitor` — line 378 runs after line 377. -/
theorem c5_counterexample :
    optContains rowBothDir.activity_direction "decreasing" = true ∧
    (determineLabelsAndActivity [rowBothDir]).map (List.map Row.activity)
      = Except.ok [some "Activator"] :=
  ⟨rfl, rfl⟩

/-- C5 (amended): for every Active row whose direction contains `decreasing`
(case-insensitive) but not `increasing`, and whose `aid` is not the special
`1215398`, the final `activity` is `Inhibitor` regardless of any earlier
keyword match. -/
theorem c5_decreasing_forces_inhibitor (rows out : List Row) (r : Row)
    (h : determineLabelsAndActivity rows = Except.ok out) (hr : r ∈ out)
    (ha : r.activity_outcome = some "Active")
    (hd : optContains r.activity_direction "decreasing" = true)
    (hni : optContains r.activity_direction "increasing" = false)
    (haid : r.aid ≠ some (Cell.int 1215398)) :
    r.activity = some "Inhibitor" := by
  obtain ⟨hout, _⟩ := classify_ok h
  subst hout
  obtain ⟨r0, hr0, rfl⟩ := List.mem_map.mp hr
  have ha0 : r0.activity_outcome = some "Active" := by simpa using ha
  have hd0 : optContains r0.activity_direction "decreasing" = true := by
    simpa using hd
  have hni0 : optContains r0.activity_direction "increasing" = false := by
    simpa using hni
  have haid0 : r0.aid ≠ some (Cell.int 1215398) := by simpa using haid
  show (step_aid1215398 (step_increasing (step_decreasing (step_inducer
    (step_actindmod (step_substrate (step_km (step_keyword (step_inactive
      (step_reset r0)))))))))).activity = some "Inhibitor"
  have hWo : (step_inducer (step_actindmod (step_substrate (step_km
      (step_keyword (step_inactive
        (step_reset r0))))))).activity_outcome = some "Active" := by
    simpa [step_inducer, step_actindmod, step_substrate, step_km,
      step_inactive] using ha0
  have hWd : (step_inducer (step_actindmod (step_substrate (step_km
      (step_keyword (step_inactive
        (step_reset r0))))))).activity_direction = r0.activity_direction := by
    simp [step_inducer, step_actindmod, step_substrate, step_km, step_inactive]
  have hWa : (step_inducer (step_actindmod (step_substrate (step_km
      (step_keyword (step_inactive
        (step_reset r0))))))).aid = r0.aid := by
    simp [step_inducer, step_actindmod, step_substrate, step_km, step_inactive]
  generalize hG : step_inducer (step_actindmod (step_substrate (step_km
    (step_keyword (step_inactive (step_reset r0)))))) = W at hWo hWd hWa ⊢
  have hcond_dec : (isActiveRow W &&
      optContains W.activity_direction "decreasing") = true := by
    unfold isActiveRow
    rw [hWo, hWd, hd0]
    decide
  have h1 : step_decreasing W = { W with activity := some "Inhibitor" } := by
    unfold step_decreasing
    rw [maskSet_pos _ hcond_dec]
  rw [h1]
  have hcond_inc : (isActiveRow { W with activity := some "Inhibitor" } &&
      optContains ({ W with
        activity := some "Inhibitor" }).activity_direction "increasing")
      = false := by
    show (isActiveRow { W with activity := some "Inhibitor" } &&
      optContains W.activity_direction "increasing") = false
    rw [hWd, hni0]
    exact Bool.and_false _
  have h2 : step_increasing { W with activity := some "Inhibitor" }
      = { W with activity := some "Inhibitor" } := by
    unfold step_increasing
    rw [maskSet_neg _ hcond_inc]
  rw [h2]
  have hbeq : (({ W with activity := some "Inhibitor" }).aid ==
      some (Cell.int 1215398)) = false := by
    show (W.aid == some (Cell.int 1215398)) = false
    rw [hWa]
    exact beq_eq_false_iff_ne.mpr haid0
  have hcond_aid : (isActiveRow { W with activity := some "Inhibitor" } &&
      (({ W with activity := some "Inhibitor" }).aid ==
        some (Cell.int 1215398))) = false := by
    rw [hbeq]
    exact Bool.and_false _
  have h3 : step_aid1215398 { W with activity := some "Inhibitor" }
      = { W with activity := some "Inhibitor" } := by
    unfold step_aid1215398
    rw [maskSet_neg _ hcond_aid]
  rw [h3]

/-- C5 witness: the concrete Active row `rowDecr` (direction `decreasing`,
ordinary `aid = 7`) gets label `Inhibitor`. -/
theorem c5_witness :
    determineLabelsAndActivity [rowDecr] = Except.ok [rowDecr_out] ∧
    rowDecr_out.activity = some "Inhibitor" :=
  ⟨rfl,
    c5_decreasing_forces_inhibitor [rowDecr] [rowDecr_out] rowDecr_out
      rfl (by decide) rfl rfl rfl (by decide)⟩

/-- C6 (counterexample): a chunk holding a row with unparseable `aid`
(`"abc"`) plus a well-formed row writes nothing at all — the `int()` call
raises and the per-chunk handler discards the whole chunk — although the
well-formed row alone would have been written. -/
theorem c6_counterexample :
    process_partition_run [] true false [rowBadAid, rowInact5] = [] ∧
    process_partition_run [] true false [rowInact5] ≠ [] :=
  ⟨by decide, by decide⟩

/-- C6 (amended): a row whose `aid` or `cid` is present but not parseable as
an integer makes the reference-key construction raise; the per-chunk handler
catches it and the entire chunk (including its well-formed rows) is
discarded from both artifacts, with a chunk-level error log. -/
theorem c6_unparseable_key_discards_chunk (allData : List (RefKey × RefRec))
    (hasSid hasPhen : Bool) (chunk : List Row) (r : Row)
    (hmem : r ∈ chunk) (ha : r.aid.isSome = true) (hc : r.cid.isSome = true)
    (hbad : parseCell r.aid = none ∨ parseCell r.cid = none) :
    process_partition_run allData hasSid hasPhen chunk = [] ∧
    process_partition_proj allData hasSid hasPhen chunk = [] := by
  have hrun : process_partition_run allData hasSid hasPhen chunk = [] := by
    unfold process_partition_run
    cases hp : process_partition allData hasSid hasPhen chunk with
    | error e => rfl
    | ok out =>
      unfold process_partition at hp
      split at hp
      · rename_i hEmpty
        exfalso
        have hr1 : r ∈ stage1 chunk :=
          List.mem_filter.mpr ⟨hmem, by rw [ha, hc]; rfl⟩
        rw [List.isEmpty_iff.mp hEmpty] at hr1
        cases hr1
      · cases hm : mapME (addAllDataConnectedInfo allData)
            ((stage1 chunk).map computeMeasured) with
        | error e => rw [hm] at hp; cases hp
        | ok df2 =>
          exfalso
          have hr1 : r ∈ stage1 chunk :=
            List.mem_filter.mpr ⟨hmem, by rw [ha, hc]; rfl⟩
          obtain ⟨b, _, hfb⟩ := mapME_ok_forward hm (computeMeasured r)
            (List.mem_map_of_mem _ hr1)
          have herr : addAllDataConnectedInfo allData (computeMeasured r)
              = Except.error "ValueError" := addInfo_err hbad
          rw [herr] at hfb
          cases hfb
  refine ⟨hrun, ?_⟩
  unfold process_partition_proj
  rw [hrun]
  rfl

/-- C6 witness: the concrete row `rowBadAid` (string `aid`) makes its chunk
write nothing to either artifact. -/
theorem c6_witness :
    process_partition_run [] true true [rowBadAid] = [] ∧
    process_partition_proj [] true true [rowBadAid] = [] :=
  c6_unparseable_key_discards_chunk [] true true [rowBadAid] rowBadAid
    (by decide) rfl rfl (Or.inl (by decide))

/-- C7: the merged reference index resolves every key to the record of the
last merged chunk containing it (within a chunk, its last row with the key),
and when the chunks have pairwise-disjoint key sets, merging them in any
order yields the same lookup function. -/
theorem c7_merge_last_writer {V : Type} (chunks : List (List (RefKey × V)))
    (k : RefKey) :
    load_all_data_connected chunks k = lastChunkValue chunks k ∧
    (∀ chunks' : List (List (RefKey × V)), chunks.Perm chunks' →
      chunks.Pairwise
        (fun x y => ∀ k', chunkHasKey x k' = true → chunkHasKey y k' = false) →
      load_all_data_connected chunks' k = load_all_data_connected chunks k) := by
  refine ⟨load_eq_lastChunkValue chunks k, ?_⟩
  intro chunks' hperm hdisj
  rw [load_eq_lastChunkValue, load_eq_lastChunkValue]
  exact (lastChunkValue_perm hperm hdisj k).symm

/-- C7 witness: two one-key chunks with distinct keys merge to the same map
in either order, and the lookup returns the last writer. -/
theorem c7_witness :
    load_all_data_connected
        [[((1, 2, some "Active"), 10)], [((3, 4, none), 20)]]
        (1, 2, some "Active")
      = lastChunkValue [[((1, 2, some "Active"), 10)], [((3, 4, none), 20)]]
        (1, 2, some "Active") ∧
    load_all_data_connected
        [[((3, 4, none), 20)], [((1, 2, some "Active"), 10)]]
        ((1 : Int), (2 : Int), some "Active")
      = load_all_data_connected
        [[((1, 2, some "Active"), 10)], [((3, 4, none), 20)]]
        (1, 2, some "Active") :=
  by
  have hpair : List.Pairwise
      (fun x y => ∀ k', chunkHasKey x k' = true → chunkHasKey y k' = false)
      [[(((1 : Int), (2 : Int), some "Active"), (10 : Nat))],
       [(((3 : Int), (4 : Int), (none : Option String)), (20 : Nat))]] := by
    refine List.pairwise_cons.mpr ⟨?_, List.pairwise_singleton _ _⟩
    intro c hc k' hk'
    have hc' : c = [(((3 : Int), (4 : Int), (none : Option String)), (20 : Nat))] := by
      simpa using hc
    subst hc'
    have hbeq : ((((1 : Int), (2 : Int), some "Active") : RefKey) == k') = true := by
      simpa [chunkHasKey] using hk'
    have hk : k' = (((1 : Int), (2 : Int), some "Active") : RefKey) :=
      (eq_of_beq hbeq).symm
    subst hk
    decide
  exact ⟨(c7_merge_last_writer
      [[((1, 2, some "Active"), 10)], [((3, 4, none), 20)]]
      (1, 2, some "Active")).1,
    (c7_merge_last_writer
      [[((1, 2, some "Active"), 10)], [((3, 4, none), 20)]]
      (1, 2, some "Active")).2
      [[((3, 4, none), 20)], [((1, 2, some "Active"), 10)]]
      (List.Perm.swap _ _ _) hpair⟩

/-- C8 (counterexample): with a `sid` column in the canonical schema, a row
whose own `sid` is missing still gets a (non-missing) `activity_url`, with
the missing marker rendered into it. -/
theorem c8_counterexample :
    rowInact5.sid = none ∧
    (process_partition_run [] true false [rowInact5]).map Row.activity_url
      = [some "https://pubchem.ncbi.nlm.nih.gov/bioassay/5#sid=<NA>"] :=
  ⟨rfl, rfl⟩

/-- C8 (amended): `activity_url` is decided by whether the canonical schema
has a `sid` column: if it does, every written row carries the formatted URL
built from its own `aid` and `sid` values (a missing `sid` renders as the
missing marker's text); if not, `activity_url` is missing for every row. -/
theorem c8_url_schema_level (allData : List (RefKey × RefRec))
    (hasSid hasPhen : Bool) (chunk : List Row) (r : Row)
    (h : r ∈ process_partition_run allData hasSid hasPhen chunk) :
    r.activity_url = if hasSid then some (mkActivityUrl r.aid r.sid) else none := by
  obtain ⟨df2, r4, hm, hr4, hkeep, hrfl⟩ := mem_run h
  have hurl : r.activity_url = (deriveUrl hasSid r4).activity_url := by
    rw [hrfl]; simp
  have haid : r.aid = r4.aid := by rw [hrfl]; simp
  have hsid : r.sid = r4.sid := by rw [hrfl]; simp
  rw [hurl, deriveUrl_url, haid, hsid]

/-- C8 witness: the written image of `rowInact5` (schema with `sid`) carries
the URL built from its own `aid` and (missing) `sid`. -/
theorem c8_witness :
    rowInact5_out ∈ process_partition_run [] true false [rowInact5] ∧
    rowInact5_out.activity_url =
      (if true then some (mkActivityUrl rowInact5_out.aid rowInact5_out.sid)
       else none) :=
  ⟨by decide,
    c8_url_schema_level [] true false [rowInact5] rowInact5_out (by decide)⟩

/-- C10 (counterexample): a chunk whose single row is Active with a missing
`activity_direction` (and a present `assay_name`) raises nothing: the row is
classified and written, so the chunk is not discarded. -/
theorem c10_counterexample :
    rowNoDir.activity_direction = none ∧
    (process_partition_run [] false false [rowNoDir]).length = 1 :=
  ⟨rfl, rfl⟩

/-- C10 (amended): if a chunk (of a file without phenotype columns) contains
an Active row, other than the sentinel, whose `assay_name` is missing — and
reference augmentation leaves such rows Active with a missing `assay_name` —
then the keyword step's `.apply` raises, the per-chunk handler catches it,
and the whole chunk is discarded from both artifacts.  A missing
`activity_direction` alone does not raise (see the counterexample). -/
theorem c10_missing_assay_discards_chunk (allData : List (RefKey × RefRec))
    (hasSid : Bool) (chunk : List Row) (r : Row)
    (hmem : r ∈ chunk) (ha : r.aid.isSome = true) (hc : r.cid.isSome = true)
    (hs : sentinelKeep r = true)
    (hact : r.activity_outcome = some "Active") (han : r.assay_name = none)
    (href : ∀ k q, List.lookup k allData = some q →
      q.assay_name = none ∧ q.activity_outcome = some "Active" ∧
        ¬(q.aid = Cell.int 1 ∧ q.cid = Cell.int 1)) :
    process_partition_run allData hasSid false chunk = [] ∧
    process_partition_proj allData hasSid false chunk = [] := by
  have hrun : process_partition_run allData hasSid false chunk = [] := by
    unfold process_partition_run
    cases hp : process_partition allData hasSid false chunk with
    | error e => rfl
    | ok out =>
      unfold process_partition at hp
      split at hp
      · rename_i hEmpty
        exfalso
        have hr1 : r ∈ stage1 chunk :=
          List.mem_filter.mpr ⟨hmem, by rw [ha, hc]; rfl⟩
        rw [List.isEmpty_iff.mp hEmpty] at hr1
        cases hr1
      · cases hm : mapME (addAllDataConnectedInfo allData)
            ((stage1 chunk).map computeMeasured) with
        | error e => rw [hm] at hp; cases hp
        | ok df2 =>
          rw [hm] at hp
          exfalso
          have hr1 : r ∈ stage1 chunk :=
            List.mem_filter.mpr ⟨hmem, by rw [ha, hc]; rfl⟩
          obtain ⟨b, hb, hfb⟩ := mapME_ok_forward hm (computeMeasured r)
            (List.mem_map_of_mem _ hr1)
          have hbprops : isActiveRow b = true ∧ b.assay_name = none ∧
              sentinelKeep b = true := by
            rcases addInfo_cases hfb with hbeq | ⟨a', c', q, _, _, hlook, hbeq⟩
            · subst hbeq
              refine ⟨?_, han, hs⟩
              show (r.activity_outcome == some "Active") = true
              rw [hact]
              decide
            · subst hbeq
              obtain ⟨hq1, hq2, hq3⟩ := href _ _ hlook
              refine ⟨?_, hq1, ?_⟩
              · show (q.activity_outcome == some "Active") = true
                rw [hq2]
                decide
              · show (!(some q.aid == some (Cell.int 1)) ||
                  !(some q.cid == some (Cell.int 1))) = true
                by_cases h1 : q.aid = Cell.int 1
                · have h2 : q.cid ≠ Cell.int 1 := fun h2 => hq3 ⟨h1, h2⟩
                  have hb2 : (some q.cid == some (Cell.int 1)) = false :=
                    beq_eq_false_iff_ne.mpr
                      (fun hh => h2 (Option.some.inj hh))
                  rw [hb2]
                  simp
                · have hb1 : (some q.aid == some (Cell.int 1)) = false :=
                    beq_eq_false_iff_ne.mpr
                      (fun hh => h1 (Option.some.inj hh))
                  rw [hb1]
                  simp
          obtain ⟨hbact, hbassay, hbsent⟩ := hbprops
          have hb4 : b ∈ stage4 false df2 := by
            rw [stage4_false]; exact hb
          have hb6 : deriveUrl hasSid b ∈
              ((stage4 false df2).map (deriveUrl hasSid)).filter sentinelKeep :=
            List.mem_filter.mpr ⟨List.mem_map_of_mem _ hb4,
              by rw [sentinelKeep_deriveUrl]; exact hbsent⟩
          have hbact' : isActiveRow (deriveUrl hasSid b) = true := by
            unfold isActiveRow
            rw [deriveUrl_outcome]
            exact hbact
          have hbassay' : (deriveUrl hasSid b).assay_name = none := by
            rw [deriveUrl_assay]
            exact hbassay
          have hp2 : determineLabelsAndActivity
              (((stage4 false df2).map (deriveUrl hasSid)).filter sentinelKeep)
              = Except.ok out := hp
          rw [classify_err hb6 hbact' hbassay'] at hp2
          cases hp2
  refine ⟨hrun, ?_⟩
  unfold process_partition_proj
  rw [hrun]
  rfl

/-- C10 witness: the concrete chunk `[rowNoAssay]` (Active, `assay_name`
missing) writes nothing to either artifact. -/
theorem c10_witness :
    process_partition_run [] true false [rowNoAssay] = [] ∧
    process_partition_proj [] true false [rowNoAssay] = [] :=
  c10_missing_assay_discards_chunk [] true [rowNoAssay] rowNoAssay
    (by decide) rfl rfl rfl rfl rfl
    (fun k q hq => by cases hq)
